import Mathlib

/-!
Verification of the ingestion/reconciliation core of the knowledge-graph
application.  The definitions below are a shallow embedding of the
TypeScript source: the NEXT-chaining ingestion route (the `POST` handler
with self-healing and temporal chaining), the identifier normalizer
`sanitizeId`, the mapping-memory save/lookup pair, the extraction-adapter
wrapper (`callOpenAI` / `parseExtractionResult`) and the graph-reader
record normalization (`mapRecordToRelationship`, strict display
filtering).  Strings stand for JS strings, with the empty string playing
the role of a falsy/absent value (the only falsy string in JS is `""`);
timestamps are abstracted as natural numbers; the store is explicit state
(an association list of node records plus an edge list), and store
operations are assumed to succeed, so `db.create` on an existing id is
the only failure path, modelled by the create-or-merge branch.
-/

/-- Characters kept by the sanitizing regexes `[^a-zA-Z0-9_]`: ASCII
alphanumerics and underscore. -/
def keepChar (c : Char) : Bool :=
  c.isAlphanum || c = '_'

/-- One character of `replace(/[^a-zA-Z0-9_]/g, '_')`: characters outside
the class are replaced by an underscore, not removed. -/
def sanitizeChar (c : Char) : Char :=
  if keepChar c then c else '_'

/-- JS `String.prototype.trim` on the character list: drop whitespace from
both ends. -/
def trimChars (cs : List Char) : List Char :=
  ((cs.dropWhile Char.isWhitespace).reverse.dropWhile Char.isWhitespace).reverse

/-- The identifier normalizer of the ingestion route:
`label ? label.trim().replace(/[^a-zA-Z0-9_]/g, '_').toLowerCase() : "unknown"`. -/
def sanitizeId (label : String) : String :=
  if label = "" then "unknown"
  else ⟨((trimChars label.data).map sanitizeChar).map Char.toLower⟩

/-- Relationship-type table-name normalization of the ingestion route:
`(rel.type || "RELATED_TO").replace(/[^a-zA-Z0-9_]/g, '_').toUpperCase()`. -/
def sanitizeRelType (t : String) : String :=
  ⟨(((if t = "" then "RELATED_TO" else t).data).map sanitizeChar).map Char.toUpper⟩

/-- The event-like entity types checked by the reconciler:
`['Event', 'Activity', 'Transaction', 'Log'].includes(entity.type)`. -/
def eventTypes : List String :=
  ["Event", "Activity", "Transaction", "Log"]

/-- An entity as returned by the extraction adapter.  `type` is `""` when
the adapter omitted it (JS `undefined` and `""` behave identically in
every use site: both are falsy and both fail the `includes` test). -/
structure ExtractedEntity where
  label : String
  type : String
  properties : List (String × String)
deriving Repr, DecidableEq

/-- A relationship as returned by the extraction adapter.  `from`/`to`
are label references (`from` is a Lean keyword, hence `fromLabel`). -/
structure ExtractedRel where
  fromLabel : String
  toLabel : String
  type : String
deriving Repr, DecidableEq

/-- The adapter's result shape `{entities, relationships}`. -/
structure ExtractionResult where
  entities : List ExtractedEntity
  relationships : List ExtractedRel
deriving Repr, DecidableEq

/-- A stored node record.  `updatedAt` is `none` for self-healed
placeholder creations, which set no `updatedAt` field. -/
structure EntityRec where
  label : String
  type : String
  properties : List (String × String)
  source : String
  updatedAt : Option Nat
deriving Repr, DecidableEq

/-- A stored edge record: its per-type table, endpoints, the optional
explicit `type` property set by the write (`""` when the RELATE set no
type, `"Sequence"` for NEXT edges) and the originating document. -/
structure EdgeRec where
  table : String
  efrom : String
  eto : String
  etype : String
  source : String
deriving Repr, DecidableEq

/-- The graph store: nodes keyed by record id, an append-only edge list,
and the set of tables unlocked by `DEFINE TABLE ... SCHEMALESS`. -/
structure Store where
  nodes : List (String × EntityRec)
  edges : List EdgeRec
  tables : List String
deriving Repr, DecidableEq

/-- Look a node up by id. -/
def lookupNode (st : Store) (id : String) : Option EntityRec :=
  (st.nodes.find? (fun p => p.fst = id)).map Prod.snd

/-- Replace the record stored under `id`, leaving other entries alone. -/
def setNode (st : Store) (id : String) (r : EntityRec) : Store :=
  { st with nodes := st.nodes.map (fun p => if p.fst = id then (id, r) else p) }

/-- `db.create` guarded by its catch clause in the self-healing block:
create the record only when the id is still free. -/
def createIfAbsent (st : Store) (id : String) (r : EntityRec) : Store :=
  if (lookupNode st id).isSome then st
  else { st with nodes := st.nodes ++ [(id, r)] }

/-- Association-list lookup in a properties object. -/
def lookupProp (ps : List (String × String)) (k : String) : Option String :=
  (ps.find? (fun p => p.fst = k)).map Prod.snd

/-- SurrealDB `MERGE` on the nested `properties` object: keys of the new
object win, keys only in the old object survive. -/
def mergeProps (old upd : List (String × String)) : List (String × String) :=
  old.filter (fun p => (lookupProp upd p.fst).isNone) ++ upd

/-- `DEFINE TABLE t SCHEMALESS PERMISSIONS FULL`, idempotent. -/
def defineTable (st : Store) (t : String) : Store :=
  if st.tables.contains t then st else { st with tables := st.tables ++ [t] }

/-- State accumulated over one row's entity loop: the store, the running
`entitiesInserted` counter and the `currentEventId` cursor. -/
structure RowAcc where
  store : Store
  entitiesInserted : Nat
  curEvent : Option String
deriving Repr, DecidableEq

/-- One iteration of the entity loop of the ingestion route: skip
label-less entities, remember the id of an event-like entity, then
create-or-merge (`db.create`, falling back to `db.merge` of only
`properties` and `updatedAt` when the id exists). -/
def stepEntity (docId : String) (now : Nat) (acc : RowAcc) (e : ExtractedEntity) : RowAcc :=
  if e.label = "" then acc
  else
    let id := "entity:" ++ sanitizeId e.label
    let cur := if eventTypes.contains e.type then some id else acc.curEvent
    match lookupNode acc.store id with
    | none =>
        { store := { acc.store with
            nodes := acc.store.nodes ++
              [(id, { label := e.label
                      type := if e.type = "" then "Concept" else e.type
                      properties := e.properties
                      source := docId
                      updatedAt := some now })] }
          entitiesInserted := acc.entitiesInserted + 1
          curEvent := cur }
    | some old =>
        { store := setNode acc.store id
            { old with properties := mergeProps old.properties e.properties
                       updatedAt := some now }
          entitiesInserted := acc.entitiesInserted + 1
          curEvent := cur }

/-- One iteration of the relationship loop: skip relationships with a
falsy endpoint, self-heal both endpoints as `Implicit` placeholders,
unlock the per-type table and append the edge. -/
def processRel (docId : String) (st : Store × Nat) (rel : ExtractedRel) : Store × Nat :=
  if rel.fromLabel = "" || rel.toLabel = "" then st
  else
    let fromId := "entity:" ++ sanitizeId rel.fromLabel
    let toId := "entity:" ++ sanitizeId rel.toLabel
    let s1 := createIfAbsent st.fst fromId
      { label := rel.fromLabel, type := "Implicit", properties := []
        source := docId, updatedAt := none }
    let s2 := createIfAbsent s1 toId
      { label := rel.toLabel, type := "Implicit", properties := []
        source := docId, updatedAt := none }
    let relType := sanitizeRelType rel.type
    let s3 := defineTable s2 relType
    ({ s3 with edges := s3.edges ++
        [{ table := relType, efrom := fromId, eto := toId, etype := "", source := docId }] },
     st.snd + 1)

/-- Run state threaded across rows: store, the two counters and the
`lastEventId` chain cursor. -/
structure RunState where
  store : Store
  entitiesInserted : Nat
  relsInserted : Nat
  lastEventId : Option String
deriving Repr, DecidableEq

/-- Process one row's extraction result: entity loop, relationship loop,
then the timeline-chain step (`RELATE lastEventId->NEXT->currentEventId`
when both cursors are set), finally the cursor update guarded by
`if (currentEventId)`. -/
def processRow (docId : String) (now : Nat) (rs : RunState) (result : ExtractionResult) : RunState :=
  let acc := result.entities.foldl (stepEntity docId now)
    { store := rs.store, entitiesInserted := rs.entitiesInserted, curEvent := none }
  let rp := result.relationships.foldl (processRel docId) (acc.store, rs.relsInserted)
  let chained : Store × Nat :=
    match rs.lastEventId, acc.curEvent with
    | some l, some c =>
        let s := defineTable rp.fst "NEXT"
        ({ s with edges := s.edges ++
            [{ table := "NEXT", efrom := l, eto := c, etype := "Sequence", source := docId }] },
         rp.snd + 1)
    | _, _ => rp
  { store := chained.fst
    entitiesInserted := acc.entitiesInserted
    relsInserted := chained.snd
    lastEventId := match acc.curEvent with | some c => some c | none => rs.lastEventId }

/-- Process a run's rows in order once every extraction succeeded. -/
def processRows (docId : String) (now : Nat) (rs : RunState) (results : List ExtractionResult) : RunState :=
  results.foldl (processRow docId now) rs

/-- The row loop of the `POST` handler with a fallible extraction call:
`await azureOpenAI.extractGraphWithMapping(row, ...)` sits directly in
the loop body, with no per-row catch, so a thrown extraction error
propagates to the route's outer catch and ends the run. -/
def runRows (extract : String → Except String ExtractionResult) (docId : String) (now : Nat) :
    RunState → List String → Except String RunState
  | rs, [] => .ok rs
  | rs, row :: rest =>
    match extract row with
    | .error e => .error e
    | .ok result => runRows extract docId now (processRow docId now rs result) rest

/-- The empty store. -/
def emptyStore : Store :=
  { nodes := [], edges := [], tables := [] }

/-- The empty initial run state. -/
def initRunState : RunState :=
  { store := emptyStore
    entitiesInserted := 0, relsInserted := 0, lastEventId := none }

/-- The markdown code-fence stripping of `parseExtractionResult`:
`content.replace(/```json\n?/g, "").replace(/```\n?/g, "").trim()`. -/
def stripFences (content : String) : String :=
  (((((content.replace "```json\n" "").replace "```json" "").replace "```\n" "").replace "```" "").trim)

/-- The adapter's `parseExtractionResult`: strip fences, hand the text to
the JSON parser (abstracted as `jsonParse`), and degrade an irrecoverable
parse failure to the empty result instead of throwing. -/
def parseExtractionResult (jsonParse : String → Option ExtractionResult) (content : String) :
    ExtractionResult :=
  match jsonParse (stripFences content) with
  | some r => r
  | none => { entities := [], relationships := [] }

/-- The adapter's retry cap `maxRetries = 3`. -/
def maxRetries : Nat := 3

/-- The retry loop body of `callOpenAI`.  `llm attempt` is the outcome of
the attempt-th chat-completion call (an `Except.error` stands for any
throw inside the try block, including the "No content" throw); on a
throw the catch increments `attempt` and rethrows once
`attempt >= maxRetries`.  The `fuel` argument counts the remaining loop
iterations (`maxRetries - attempt`), making the while loop structural. -/
def callOpenAILoop (llm : Nat → Except String String)
    (jsonParse : String → Option ExtractionResult) :
    Nat → Nat → Except String ExtractionResult
  | _, 0 => .error "Retries exhausted"
  | attempt, fuel + 1 =>
    match llm attempt with
    | .ok content => .ok (parseExtractionResult jsonParse content)
    | .error e =>
        if attempt + 1 ≥ maxRetries then .error e
        else callOpenAILoop llm jsonParse (attempt + 1) fuel

/-- The adapter's `callOpenAI`: up to `maxRetries` attempts, parse
failures degraded to the empty result, call failures after the final
retry rethrown to the caller. -/
def callOpenAI (llm : Nat → Except String String)
    (jsonParse : String → Option ExtractionResult) : Except String ExtractionResult :=
  callOpenAILoop llm jsonParse 0 maxRetries

/-- One approved mapping rule `{header_column, relationship_type, target_entity}`. -/
structure MappingRule where
  header_column : String
  relationship_type : String
  target_entity : String
deriving Repr, DecidableEq

/-- One `data_source_config` row. -/
structure MappingConfig where
  signature : String
  last_file_name : String
  approved_mapping : List MappingRule
deriving Repr, DecidableEq

/-- The signature both routes compute: `headers.sort().join("|")`. -/
def headerSignature (headers : List String) : String :=
  String.intercalate "|" (headers.insertionSort (· ≤ ·))

/-- The mapping-memory save of the process route: derive the headers from
the approved mapping, compute the signature, and create a new config row
only when no row with that signature exists (first-write-wins). -/
def saveConfig (store : List MappingConfig) (approvedMapping : List MappingRule)
    (fileName : String) : List MappingConfig :=
  let sig := headerSignature (approvedMapping.map (·.header_column))
  if (store.find? (fun c => c.signature = sig)).isSome then store
  else store ++ [{ signature := sig, last_file_name := fileName
                   approved_mapping := approvedMapping }]

/-- The mapping-memory lookup of the analyze route: compute the same
signature from the file's headers and return the stored approved mapping
on an exact signature match. -/
def lookupConfig (store : List MappingConfig) (headers : List String) :
    Option (List MappingRule) :=
  let sig := headerSignature headers
  (store.find? (fun c => c.signature = sig)).map (·.approved_mapping)

/-- A raw store record as returned by scanning the edge tables.  Absent
string fields are `""` (falsy in every use site); `rin`/`rout` are the
store-native `in`/`out` pointers of a RELATE record. -/
structure RawRecord where
  id : String
  rin : String
  rout : String
  rfrom : String
  rto : String
  rtype : String
  source : String
deriving Repr, DecidableEq

/-- A relationship in the read model. -/
structure RRel where
  id : String
  rfrom : String
  rto : String
  type : String
deriving Repr, DecidableEq

/-- The first component of `id.split(':')`: the characters before the
first colon, i.e. the table-name portion of a store-native id. -/
def tableNamePart (id : String) : String :=
  ⟨id.data.takeWhile (fun c => c ≠ ':')⟩

/-- The graph reader's `mapRecordToRelationship`: endpoints from
`r.from || r.in` and `r.to || r.out`; the `type` is
`r.id ? r.id.split(':')[0] : "Edge"` — always the table-name portion of
the id, never the record's own `type` property. -/
def mapRecordToRelationship (r : RawRecord) : RRel :=
  { id := r.id
    rfrom := if r.rfrom ≠ "" then r.rfrom else r.rin
    rto := if r.rto ≠ "" then r.rto else r.rout
    type := if r.id ≠ "" then tableNamePart r.id else "Edge" }

/-- Modelled from the spec, for comparison with the source's
`mapRecordToRelationship`: "an edge's `type` is recovered either from an
explicit `type` property or, if absent, from the table-name portion of
its store-native identifier". -/
def specEdgeType (r : RawRecord) : String :=
  if r.rtype ≠ "" then r.rtype
  else if r.id ≠ "" then tableNamePart r.id else "Edge"

/-- The fixed exclusion list of `getAllRelationships`. -/
def excludedTables : List String :=
  ["entity", "document", "relationship_def", "data_source_config", "user", "session"]

/-- The graph reader's dynamic edge scan: every catalog table not in the
exclusion list is an edge table; records with a complete endpoint pair
(`(r.in && r.out) || (r.from && r.to)`) are kept and normalized. -/
def getAllRelationships (catalog : List (String × List RawRecord)) : List RRel :=
  let edgeTables := catalog.filter (fun t => !excludedTables.contains t.fst)
  let records := edgeTables.flatMap (·.snd)
  let validEdges := records.filter
    (fun r => (r.rin ≠ "" && r.rout ≠ "") || (r.rfrom ≠ "" && r.rto ≠ ""))
  validEdges.map mapRecordToRelationship

/-- An entity in the read model. -/
structure REntity where
  id : String
  label : String
  type : String
deriving Repr, DecidableEq

/-- The strict-mode display filter of `loadGraphData`: build the set of
valid node ids and keep only edges whose endpoints are both valid. -/
def strictEdges (entities : List REntity) (relationships : List RRel) : List RRel :=
  let validIds := entities.map (·.id)
  relationships.filter (fun r => validIds.contains r.rfrom && validIds.contains r.rto)

/-- Modelled from the spec, for comparison with the source's
`sanitizeId`: the normalizer "strips all characters outside
`[A-Za-z0-9_]`, collapses to lowercase, falls back to a fixed sentinel
("unknown") for empty/null input". -/
def normalizeSpec (label : String) : String :=
  if label = "" then "unknown"
  else ⟨(label.data.filter keepChar).map Char.toLower⟩

/-- The `currentEventId` a row's entity loop ends with: the id of the
last entity that has a label and an event-like type. -/
def rowEventId (result : ExtractionResult) : Option String :=
  result.entities.foldl
    (fun cur e =>
      if e.label = "" then cur
      else if eventTypes.contains e.type then some ("entity:" ++ sanitizeId e.label) else cur)
    none

/-- The NEXT edges the chain step emits for a cursor and the ordered list
of event ids of the following rows: one edge per consecutive pair. -/
def chainFrom (docId : String) : Option String → List String → List EdgeRec
  | _, [] => []
  | none, c :: rest => chainFrom docId (some c) rest
  | some l, c :: rest =>
      { table := "NEXT", efrom := l, eto := c, etype := "Sequence", source := docId }
        :: chainFrom docId (some c) rest

/-- Edges living in the NEXT table. -/
def nextEdges (st : Store) : List EdgeRec :=
  st.edges.filter (fun e => e.table = "NEXT")

/-! Helper lemmas about the store model. -/

theorem lookupNode_append (st : Store) (id id' : String) (r : EntityRec) :
    lookupNode { st with nodes := st.nodes ++ [(id, r)] } id' =
      (lookupNode st id').or (if id' = id then some r else none) := by
  unfold lookupNode
  rw [List.find?_append]
  cases hf : st.nodes.find? (fun p => p.fst = id') with
  | some p => simp
  | none =>
    by_cases h : id' = id
    · subst h
      simp [List.find?]
    · have h2 : ¬ id = id' := fun he => h he.symm
      simp [List.find?, h, h2]

theorem find?_map_setEntry (l : List (String × EntityRec)) (id : String) (r : EntityRec)
    (h : (l.find? (fun p => p.fst = id)).isSome) :
    (l.map (fun p => if p.fst = id then (id, r) else p)).find? (fun p => p.fst = id) =
      some (id, r) := by
  induction l with
  | nil => simp at h
  | cons a l ih =>
    by_cases ha : a.fst = id
    · simp [List.find?, ha]
    · rw [List.find?_cons_of_neg _ (by simp [ha])] at h
      rw [List.map_cons, if_neg ha, List.find?_cons_of_neg _ (by simp [ha])]
      exact ih h

theorem lookupNode_setNode (st : Store) (id : String) (r : EntityRec)
    (h : (lookupNode st id).isSome) :
    lookupNode (setNode st id r) id = some r := by
  unfold lookupNode at h ⊢
  unfold setNode
  rw [find?_map_setEntry _ _ _ (by cases hf : st.nodes.find? (fun p => p.fst = id) <;> simp [hf] at h ⊢)]
  rfl

theorem createIfAbsent_edges (st : Store) (id : String) (r : EntityRec) :
    (createIfAbsent st id r).edges = st.edges := by
  unfold createIfAbsent
  split <;> rfl

theorem createIfAbsent_tables (st : Store) (id : String) (r : EntityRec) :
    (createIfAbsent st id r).tables = st.tables := by
  unfold createIfAbsent
  split <;> rfl

theorem defineTable_nodes (st : Store) (t : String) :
    (defineTable st t).nodes = st.nodes := by
  unfold defineTable
  split <;> rfl

theorem defineTable_edges (st : Store) (t : String) :
    (defineTable st t).edges = st.edges := by
  unfold defineTable
  split <;> rfl

/-- C9: a relationship whose `from` or `to` is the empty string (or
absent) is skipped entirely by the relationship loop: no placeholder
node, no table unlock, no edge, no counter increment — the whole step is
the identity on the store-and-counter pair. -/
theorem empty_endpoint_skipped (docId : String) (st : Store) (k : Nat) (rel : ExtractedRel)
    (h : rel.fromLabel = "" ∨ rel.toLabel = "") :
    processRel docId (st, k) rel = (st, k) := by
  unfold processRel
  rcases h with h | h <;> simp [h]

/-- Witness for `empty_endpoint_skipped` at a concrete relationship with
an empty `to` reference. -/
theorem empty_endpoint_skipped_witness :
    (({ fromLabel := "A", toLabel := "", type := "KNOWS" } : ExtractedRel).fromLabel = "" ∨
      ({ fromLabel := "A", toLabel := "", type := "KNOWS" } : ExtractedRel).toLabel = "") ∧
    processRel "doc:1" (emptyStore, 0)
        { fromLabel := "A", toLabel := "", type := "KNOWS" } = (emptyStore, 0) := by
  refine ⟨Or.inr (by decide), ?_⟩
  exact empty_endpoint_skipped "doc:1" emptyStore 0
    { fromLabel := "A", toLabel := "", type := "KNOWS" } (Or.inr (by decide))

/-- C10: a relationship with non-empty endpoints but an absent/empty
`type` is not skipped: the reconciler substitutes the catch-all label
and appends the edge to the table `RELATED_TO`, incrementing the
relationship counter. -/
theorem empty_type_stored_as_related_to (docId : String) (st : Store) (k : Nat)
    (rel : ExtractedRel) (hf : rel.fromLabel ≠ "") (ht : rel.toLabel ≠ "")
    (hty : rel.type = "") :
    (processRel docId (st, k) rel).fst.edges =
      st.edges ++ [{ table := "RELATED_TO"
                     efrom := "entity:" ++ sanitizeId rel.fromLabel
                     eto := "entity:" ++ sanitizeId rel.toLabel
                     etype := "", source := docId }] ∧
    (processRel docId (st, k) rel).snd = k + 1 := by
  have hrt : sanitizeRelType rel.type = "RELATED_TO" := by rw [hty]; rfl
  unfold processRel
  simp only [hf, ht, Bool.or_self, decide_eq_true_eq, decide_not]
  rw [if_neg (by simp [hf, ht])]
  refine ⟨?_, rfl⟩
  simp [hrt, defineTable_edges, createIfAbsent_edges]

/-- Witness for `empty_type_stored_as_related_to` at a concrete
relationship lacking a type. -/
theorem empty_type_stored_as_related_to_witness :
    (({ fromLabel := "A", toLabel := "B", type := "" } : ExtractedRel).fromLabel ≠ "" ∧
     ({ fromLabel := "A", toLabel := "B", type := "" } : ExtractedRel).toLabel ≠ "" ∧
     ({ fromLabel := "A", toLabel := "B", type := "" } : ExtractedRel).type = "") ∧
    ((processRel "doc:1" (emptyStore, 0)
        { fromLabel := "A", toLabel := "B", type := "" }).fst.edges =
      emptyStore.edges ++ [{ table := "RELATED_TO"
                             efrom := "entity:" ++ sanitizeId "A"
                             eto := "entity:" ++ sanitizeId "B"
                             etype := "", source := "doc:1" }] ∧
     (processRel "doc:1" (emptyStore, 0)
        { fromLabel := "A", toLabel := "B", type := "" }).snd = 0 + 1) := by
  refine ⟨⟨by decide, by decide, by decide⟩, ?_⟩
  exact empty_type_stored_as_related_to "doc:1" emptyStore 0 _ (by decide) (by decide) (by decide)

/-- C8 counterexample: a record carrying an explicit `type` property
(`"FRIEND"`) in the table `KNOWS` is normalized with type `"KNOWS"` — the
reader always takes the table-name portion of the id and ignores the
explicit property, contrary to the claim (the spec-faithful
`specEdgeType` would have returned `"FRIEND"`). -/
theorem edge_type_property_ignored :
    (mapRecordToRelationship
        { id := "KNOWS:1", rin := "entity:a", rout := "entity:b"
          rfrom := "", rto := "", rtype := "FRIEND", source := "" }).type = "KNOWS" ∧
    (mapRecordToRelationship
        { id := "KNOWS:1", rin := "entity:a", rout := "entity:b"
          rfrom := "", rto := "", rtype := "FRIEND", source := "" }).type ≠ "FRIEND" ∧
    specEdgeType
        { id := "KNOWS:1", rin := "entity:a", rout := "entity:b"
          rfrom := "", rto := "", rtype := "FRIEND", source := "" } = "FRIEND" := by
  refine ⟨by decide, by decide, by decide⟩

/-- C8 amended: the reader recovers the edge `type` from the table-name
portion of the store-native id (`"Edge"` when the id is absent), and the
result is independent of any explicit `type` property on the record. -/
theorem edge_type_from_table_name (r : RawRecord) (t : String) :
    (mapRecordToRelationship r).type =
      (if r.id ≠ "" then tableNamePart r.id else "Edge") ∧
    (mapRecordToRelationship { r with rtype := t }).type =
      (mapRecordToRelationship r).type := by
  exact ⟨rfl, rfl⟩

theorem contains_true_mem {l : List String} {a : String} (h : l.contains a = true) : a ∈ l := by
  simpa using h

/-- C7: every relationship surviving the strict display filter over the
graph reader's dynamic scan has both endpoints among the returned entity
ids — dangling edges are hidden by the filter, not errors. -/
theorem strict_mode_no_dangling (entities : List REntity)
    (catalog : List (String × List RawRecord)) (r : RRel)
    (hr : r ∈ strictEdges entities (getAllRelationships catalog)) :
    r.rfrom ∈ entities.map (·.id) ∧ r.rto ∈ entities.map (·.id) := by
  unfold strictEdges at hr
  rw [List.mem_filter] at hr
  have hp := hr.2
  rw [Bool.and_eq_true] at hp
  constructor
  · exact contains_true_mem hp.1
  · exact contains_true_mem hp.2

/-- Witness for `strict_mode_no_dangling` on a one-node, one-edge
catalog. -/
theorem strict_mode_no_dangling_witness :
    ({ id := "KNOWS:1", rfrom := "entity:a", rto := "entity:a", type := "KNOWS" } : RRel) ∈
      strictEdges [{ id := "entity:a", label := "A", type := "Concept" }]
        (getAllRelationships
          [("KNOWS", [{ id := "KNOWS:1", rin := "entity:a", rout := "entity:a"
                        rfrom := "", rto := "", rtype := "", source := "" }])]) ∧
    ("entity:a" ∈ ([{ id := "entity:a", label := "A", type := "Concept" }] : List REntity).map (·.id) ∧
     "entity:a" ∈ ([{ id := "entity:a", label := "A", type := "Concept" }] : List REntity).map (·.id)) := by
  refine ⟨by decide, ?_⟩
  exact strict_mode_no_dangling [{ id := "entity:a", label := "A", type := "Concept" }]
    [("KNOWS", [{ id := "KNOWS:1", rin := "entity:a", rout := "entity:a"
                  rfrom := "", rto := "", rtype := "", source := "" }])]
    { id := "KNOWS:1", rfrom := "entity:a", rto := "entity:a", type := "KNOWS" }
    (by decide)

theorem runRows_ok (extract : String → Except String ExtractionResult)
    (res : ExtractionResult) (hok : ∀ row, extract row = .ok res)
    (docId : String) (now : Nat) (rs : RunState) (rows : List String) :
    runRows extract docId now rs rows =
      .ok (processRows docId now rs (rows.map (fun _ => res))) := by
  induction rows generalizing rs with
  | nil => rfl
  | cons row rest ih =>
    unfold runRows
    rw [hok]
    simpa [processRows] using ih (processRow docId now rs res)

/-- C2 counterexample: with an LLM call that fails on every attempt, the
adapter rethrows after the final retry, and because the row loop has no
per-row catch the whole two-row run aborts with that error — the second
row is never processed and no success result is produced. -/
theorem extraction_failure_aborts_run :
    runRows (fun _ => callOpenAI (fun _ => Except.error "boom") (fun _ => none)) "doc:1" 0
      initRunState ["row1", "row2"] = Except.error "boom" := by
  rfl

/-- C2 amended: a malformed JSON payload is degraded to the empty
extraction result, and with every row degraded this way ingestion
processes all rows and completes; an LLM call failure on every attempt,
however, escapes `callOpenAI` after the final retry and aborts the run
at the first row, leaving the remaining rows unprocessed. -/
theorem adapter_error_policy (llm : Nat → Except String String)
    (jsonParse : String → Option ExtractionResult) (e content : String)
    (hfail : ∀ n, llm n = .error e) (hbad : jsonParse (stripFences content) = none)
    (docId : String) (now : Nat) (rs : RunState) (row : String) (rest : List String)
    (goodRows : List String) :
    parseExtractionResult jsonParse content = { entities := [], relationships := [] } ∧
    callOpenAI llm jsonParse = .error e ∧
    runRows (fun _ => callOpenAI llm jsonParse) docId now rs (row :: rest) = .error e ∧
    runRows (fun _ => .ok (parseExtractionResult jsonParse content)) docId now rs goodRows =
      .ok (processRows docId now rs
            (goodRows.map (fun _ => { entities := [], relationships := [] }))) := by
  have hparse : parseExtractionResult jsonParse content = { entities := [], relationships := [] } := by
    unfold parseExtractionResult
    rw [hbad]
  have hcall : callOpenAI llm jsonParse = .error e := by
    have hllm : llm = fun _ => .error e := funext hfail
    subst hllm
    rfl
  refine ⟨hparse, hcall, ?_, ?_⟩
  · unfold runRows
    rw [hcall]
  · rw [hparse]
    exact runRows_ok _ _ (fun _ => rfl) docId now rs goodRows

/-- Witness for `adapter_error_policy` at a concretely failing oracle and
a concretely unparseable payload. -/
theorem adapter_error_policy_witness :
    (∀ n : Nat, (fun _ : Nat => (Except.error "boom" : Except String String)) n =
        .error "boom") ∧
    (fun _ : String => (none : Option ExtractionResult)) (stripFences "garbage") = none ∧
    (parseExtractionResult (fun _ => none) "garbage" = { entities := [], relationships := [] } ∧
     callOpenAI (fun _ => Except.error "boom") (fun _ => none) = .error "boom" ∧
     runRows (fun _ => callOpenAI (fun _ => Except.error "boom") (fun _ => none)) "doc:1" 0
        initRunState ("r1" :: ["r2"]) = .error "boom" ∧
     runRows (fun _ => .ok (parseExtractionResult (fun _ => none) "garbage")) "doc:1" 0
        initRunState ["r1", "r2"] =
       .ok (processRows "doc:1" 0 initRunState
             (["r1", "r2"].map (fun _ => { entities := [], relationships := [] })))) := by
  refine ⟨fun _ => rfl, rfl, ?_⟩
  exact adapter_error_policy (fun _ => Except.error "boom") (fun _ => none) "boom" "garbage"
    (fun _ => rfl) rfl "doc:1" 0 initRunState "r1" ["r2"] ["r1", "r2"]

/-- C1: upserting an entity for label L1 and then one for L2 that
normalizes to the same storage key yields exactly one stored node under
that key: its `type`, `label` and `metadata.source` are the values of
the first creation (the conflict-path merge touches only `properties`
and `updatedAt`), and its properties are the merge of both upserts'
properties. -/
theorem upsert_idempotent_identity (docId : String) (t1 t2 n0 : Nat)
    (cur0 : Option String) (st : Store) (e1 e2 : ExtractedEntity)
    (h1 : e1.label ≠ "") (h2 : e2.label ≠ "")
    (hkey : sanitizeId e2.label = sanitizeId e1.label)
    (hfresh : lookupNode st ("entity:" ++ sanitizeId e1.label) = none) :
    lookupNode (stepEntity docId t2
        (stepEntity docId t1 { store := st, entitiesInserted := n0, curEvent := cur0 } e1)
          e2).store ("entity:" ++ sanitizeId e1.label) =
      some { label := e1.label
             type := if e1.type = "" then "Concept" else e1.type
             properties := mergeProps e1.properties e2.properties
             source := docId
             updatedAt := some t2 } ∧
    (stepEntity docId t2
        (stepEntity docId t1 { store := st, entitiesInserted := n0, curEvent := cur0 } e1)
          e2).store.nodes.length = st.nodes.length + 1 := by
  have hrec1 :
      stepEntity docId t1 { store := st, entitiesInserted := n0, curEvent := cur0 } e1 =
        { store := { st with nodes := st.nodes ++
            [("entity:" ++ sanitizeId e1.label,
              { label := e1.label
                type := if e1.type = "" then "Concept" else e1.type
                properties := e1.properties
                source := docId
                updatedAt := some t1 })] }
          entitiesInserted := n0 + 1
          curEvent := if eventTypes.contains e1.type
            then some ("entity:" ++ sanitizeId e1.label) else cur0 } := by
    unfold stepEntity
    rw [if_neg h1]
    simp only [hfresh]
  rw [hrec1]
  have hlk1 : lookupNode
      { st with nodes := st.nodes ++
          [("entity:" ++ sanitizeId e1.label,
            { label := e1.label
              type := if e1.type = "" then "Concept" else e1.type
              properties := e1.properties
              source := docId
              updatedAt := some t1 })] } ("entity:" ++ sanitizeId e1.label) =
      some { label := e1.label
             type := if e1.type = "" then "Concept" else e1.type
             properties := e1.properties
             source := docId
             updatedAt := some t1 } := by
    rw [lookupNode_append, hfresh, if_pos rfl]
    rfl
  constructor
  · unfold stepEntity
    rw [if_neg h2]
    simp only [hkey, hlk1]
    rw [lookupNode_setNode _ _ _ (by rw [hlk1]; rfl)]
  · unfold stepEntity
    rw [if_neg h2]
    simp only [hkey, hlk1]
    simp [setNode, List.length_append]

/-- Witness for `upsert_idempotent_identity`: labels `"Ab C"` and
`"AB c"` both normalize to `ab_c`; the merged node keeps the first
upsert's type and label and merges both property sets. -/
theorem upsert_idempotent_identity_witness :
    (({ label := "Ab C", type := "Person", properties := [("x", "1")] } :
        ExtractedEntity).label ≠ "" ∧
     ({ label := "AB c", type := "Robot", properties := [("y", "2")] } :
        ExtractedEntity).label ≠ "" ∧
     sanitizeId "AB c" = sanitizeId "Ab C" ∧
     lookupNode emptyStore ("entity:" ++ sanitizeId "Ab C") = none) ∧
    (lookupNode (stepEntity "doc:1" 7
        (stepEntity "doc:1" 6 { store := emptyStore, entitiesInserted := 0, curEvent := none }
          { label := "Ab C", type := "Person", properties := [("x", "1")] })
          { label := "AB c", type := "Robot", properties := [("y", "2")] }).store
        ("entity:" ++ sanitizeId "Ab C") =
      some { label := "Ab C"
             type := if ("Person" : String) = "" then "Concept" else "Person"
             properties := mergeProps [("x", "1")] [("y", "2")]
             source := "doc:1"
             updatedAt := some 7 } ∧
     (stepEntity "doc:1" 7
        (stepEntity "doc:1" 6 { store := emptyStore, entitiesInserted := 0, curEvent := none }
          { label := "Ab C", type := "Person", properties := [("x", "1")] })
          { label := "AB c", type := "Robot", properties := [("y", "2")] }).store.nodes.length =
       emptyStore.nodes.length + 1) := by
  refine ⟨⟨by decide, by decide, by decide, by decide⟩, ?_⟩
  exact upsert_idempotent_identity "doc:1" 6 7 0 none emptyStore
    { label := "Ab C", type := "Person", properties := [("x", "1")] }
    { label := "AB c", type := "Robot", properties := [("y", "2")] }
    (by decide) (by decide) (by decide) (by decide)

theorem createIfAbsent_of_none (st : Store) (id : String) (r : EntityRec)
    (h : lookupNode st id = none) :
    createIfAbsent st id r = { st with nodes := st.nodes ++ [(id, r)] } := by
  unfold createIfAbsent
  rw [h]
  rfl

theorem createIfAbsent_of_some (st : Store) (id : String) (r old : EntityRec)
    (h : lookupNode st id = some old) :
    createIfAbsent st id r = st := by
  unfold createIfAbsent
  rw [h]
  rfl

theorem lookupNode_congr_nodes (s1 s2 : Store) (h : s1.nodes = s2.nodes) (id : String) :
    lookupNode s1 id = lookupNode s2 id := by
  unfold lookupNode
  rw [h]

/-- C4 counterexample: the relationship from `"A B"` to `"A_B"` has two
distinct unnormalized references that share the storage key `a_b`; after
self-healing the single shared placeholder carries the `from` reference
`"A B"` as label, so the `to` endpoint's node does not have label equal
to its own original reference `"A_B"` as the claim states. -/
theorem self_heal_to_label_counterexample :
    (lookupNode (processRel "doc:1" (emptyStore, 0)
        { fromLabel := "A B", toLabel := "A_B", type := "KNOWS" }).fst
        ("entity:" ++ sanitizeId "A_B")).map EntityRec.label = some "A B" ∧
    ¬ (lookupNode (processRel "doc:1" (emptyStore, 0)
        { fromLabel := "A B", toLabel := "A_B", type := "KNOWS" }).fst
        ("entity:" ++ sanitizeId "A_B")).map EntityRec.label = some "A_B" := by
  refine ⟨by decide, by decide⟩

theorem processRel_fst_nodes (docId : String) (st : Store) (k : Nat) (rel : ExtractedRel)
    (hf : rel.fromLabel ≠ "") (ht : rel.toLabel ≠ "") :
    (processRel docId (st, k) rel).fst.nodes =
      (createIfAbsent
        (createIfAbsent st ("entity:" ++ sanitizeId rel.fromLabel)
          { label := rel.fromLabel, type := "Implicit", properties := []
            source := docId, updatedAt := none })
        ("entity:" ++ sanitizeId rel.toLabel)
        { label := rel.toLabel, type := "Implicit", properties := []
          source := docId, updatedAt := none }).nodes := by
  simp only [processRel]
  rw [if_neg (by simp [hf, ht])]
  simp [defineTable_nodes]

theorem processRel_fst_edges (docId : String) (st : Store) (k : Nat) (rel : ExtractedRel)
    (hf : rel.fromLabel ≠ "") (ht : rel.toLabel ≠ "") :
    (processRel docId (st, k) rel).fst.edges =
      (createIfAbsent
        (createIfAbsent st ("entity:" ++ sanitizeId rel.fromLabel)
          { label := rel.fromLabel, type := "Implicit", properties := []
            source := docId, updatedAt := none })
        ("entity:" ++ sanitizeId rel.toLabel)
        { label := rel.toLabel, type := "Implicit", properties := []
          source := docId, updatedAt := none }).edges ++
      [{ table := sanitizeRelType rel.type
         efrom := "entity:" ++ sanitizeId rel.fromLabel
         eto := "entity:" ++ sanitizeId rel.toLabel
         etype := "", source := docId }] := by
  simp only [processRel]
  rw [if_neg (by simp [hf, ht])]
  simp [defineTable_edges]

/-- C4 amended: for a relationship with non-empty endpoint references
whose ids are both absent from the store, processing it creates both
endpoint nodes as `Implicit` placeholders — the `from` node labelled
with the `from` reference, the `to` node labelled with its own `to`
reference unless both references normalize to the same key, in which
case the one shared node keeps the `from` reference as label — and
appends the edge to its per-type table. -/
theorem self_healing_completeness (docId : String) (st : Store) (k : Nat)
    (rel : ExtractedRel) (hf : rel.fromLabel ≠ "") (ht : rel.toLabel ≠ "")
    (hfrom : lookupNode st ("entity:" ++ sanitizeId rel.fromLabel) = none)
    (hto : lookupNode st ("entity:" ++ sanitizeId rel.toLabel) = none) :
    lookupNode (processRel docId (st, k) rel).fst ("entity:" ++ sanitizeId rel.fromLabel) =
      some { label := rel.fromLabel, type := "Implicit", properties := []
             source := docId, updatedAt := none } ∧
    lookupNode (processRel docId (st, k) rel).fst ("entity:" ++ sanitizeId rel.toLabel) =
      some (if ("entity:" ++ sanitizeId rel.toLabel) = ("entity:" ++ sanitizeId rel.fromLabel)
            then { label := rel.fromLabel, type := "Implicit", properties := []
                   source := docId, updatedAt := none }
            else { label := rel.toLabel, type := "Implicit", properties := []
                   source := docId, updatedAt := none }) ∧
    ({ table := sanitizeRelType rel.type
       efrom := "entity:" ++ sanitizeId rel.fromLabel
       eto := "entity:" ++ sanitizeId rel.toLabel
       etype := "", source := docId } : EdgeRec) ∈ (processRel docId (st, k) rel).fst.edges := by
  have hlook : ∀ id, lookupNode (processRel docId (st, k) rel).fst id =
      lookupNode (createIfAbsent
        (createIfAbsent st ("entity:" ++ sanitizeId rel.fromLabel)
          { label := rel.fromLabel, type := "Implicit", properties := []
            source := docId, updatedAt := none })
        ("entity:" ++ sanitizeId rel.toLabel)
        { label := rel.toLabel, type := "Implicit", properties := []
          source := docId, updatedAt := none }) id := by
    intro id
    unfold lookupNode
    rw [processRel_fst_nodes docId st k rel hf ht]
  rw [hlook, hlook]
  rw [createIfAbsent_of_none st _ _ hfrom]
  by_cases heq : ("entity:" ++ sanitizeId rel.toLabel) = ("entity:" ++ sanitizeId rel.fromLabel)
  · have hlk1 : lookupNode
        { st with nodes := st.nodes ++
            [("entity:" ++ sanitizeId rel.fromLabel,
              { label := rel.fromLabel, type := "Implicit", properties := []
                source := docId, updatedAt := none })] }
        ("entity:" ++ sanitizeId rel.toLabel) =
        some { label := rel.fromLabel, type := "Implicit", properties := []
               source := docId, updatedAt := none } := by
      rw [lookupNode_append, hto, if_pos heq]
      rfl
    rw [createIfAbsent_of_some _ _ _ _ hlk1]
    refine ⟨?_, ?_, ?_⟩
    · rw [lookupNode_append, hfrom, if_pos rfl]
      rfl
    · rw [hlk1, if_pos heq]
    · rw [processRel_fst_edges docId st k rel hf ht]
      simp
  · have hlk1 : lookupNode
        { st with nodes := st.nodes ++
            [("entity:" ++ sanitizeId rel.fromLabel,
              { label := rel.fromLabel, type := "Implicit", properties := []
                source := docId, updatedAt := none })] }
        ("entity:" ++ sanitizeId rel.toLabel) = none := by
      rw [lookupNode_append, hto, if_neg heq]
      rfl
    rw [createIfAbsent_of_none _ _ _ hlk1]
    refine ⟨?_, ?_, ?_⟩
    · rw [lookupNode_append]
      rw [lookupNode_append, hfrom, if_pos rfl]
      have hne : ¬ ("entity:" ++ sanitizeId rel.fromLabel) = ("entity:" ++ sanitizeId rel.toLabel) :=
        fun h => heq h.symm
      simp [hne]
    · rw [lookupNode_append, hlk1, if_pos rfl, if_neg heq]
      rfl
    · rw [processRel_fst_edges docId st k rel hf ht]
      simp

/-- Witness for `self_healing_completeness` at a concrete relationship
between two fresh labels. -/
theorem self_healing_completeness_witness :
    (({ fromLabel := "A B", toLabel := "C-D", type := "knows" } : ExtractedRel).fromLabel ≠ "" ∧
     ({ fromLabel := "A B", toLabel := "C-D", type := "knows" } : ExtractedRel).toLabel ≠ "" ∧
     lookupNode emptyStore ("entity:" ++ sanitizeId "A B") = none ∧
     lookupNode emptyStore ("entity:" ++ sanitizeId "C-D") = none) ∧
    (lookupNode (processRel "doc:1" (emptyStore, 0)
        { fromLabel := "A B", toLabel := "C-D", type := "knows" }).fst
        ("entity:" ++ sanitizeId "A B") =
      some { label := "A B", type := "Implicit", properties := []
             source := "doc:1", updatedAt := none } ∧
     lookupNode (processRel "doc:1" (emptyStore, 0)
        { fromLabel := "A B", toLabel := "C-D", type := "knows" }).fst
        ("entity:" ++ sanitizeId "C-D") =
      some (if ("entity:" ++ sanitizeId "C-D") = ("entity:" ++ sanitizeId "A B")
            then { label := "A B", type := "Implicit", properties := []
                   source := "doc:1", updatedAt := none }
            else { label := "C-D", type := "Implicit", properties := []
                   source := "doc:1", updatedAt := none }) ∧
     ({ table := sanitizeRelType "knows"
        efrom := "entity:" ++ sanitizeId "A B"
        eto := "entity:" ++ sanitizeId "C-D"
        etype := "", source := "doc:1" } : EdgeRec) ∈
       (processRel "doc:1" (emptyStore, 0)
          { fromLabel := "A B", toLabel := "C-D", type := "knows" }).fst.edges) := by
  refine ⟨⟨by decide, by decide, by decide, by decide⟩, ?_⟩
  exact self_healing_completeness "doc:1" emptyStore 0
    { fromLabel := "A B", toLabel := "C-D", type := "knows" }
    (by decide) (by decide) (by decide) (by decide)

theorem headerSignature_perm (l1 l2 : List String) (h : l1.Perm l2) :
    headerSignature l1 = headerSignature l2 := by
  unfold headerSignature
  congr 1
  exact @List.eq_of_perm_of_sorted String (· ≤ ·) _ _ _
    (((l1.perm_insertionSort (· ≤ ·)).trans h).trans (l2.perm_insertionSort (· ≤ ·)).symm)
    (List.sorted_insertionSort (· ≤ ·) l1)
    (List.sorted_insertionSort (· ≤ ·) l2)

theorem saveConfig_eq (store : List MappingConfig) (m : List MappingRule) (f : String) :
    saveConfig store m f =
      if (store.find? (fun c =>
        c.signature = headerSignature (m.map (·.header_column)))).isSome
      then store
      else store ++ [{ signature := headerSignature (m.map (·.header_column))
                       last_file_name := f, approved_mapping := m }] := rfl

theorem lookupConfig_eq (store : List MappingConfig) (headers : List String) :
    lookupConfig store headers =
      (store.find? (fun c => c.signature = headerSignature headers)).map
        (·.approved_mapping) := rfl

/-- C6: with no config stored under the signature, saving mapping M1 and
then attempting to save a different mapping M2 whose headers produce the
same signature leaves the memory exactly as after the first save
(first-write-wins), and looking the signature up through any reordering
of the headers still returns M1. -/
theorem mapping_memory_first_write_wins (store : List MappingConfig)
    (m1 m2 : List MappingRule) (f1 f2 : String) (headers : List String)
    (hsig : headerSignature (m2.map (·.header_column)) =
      headerSignature (m1.map (·.header_column)))
    (hperm : headers.Perm (m1.map (·.header_column)))
    (hfresh : (store.find? (fun c =>
      c.signature = headerSignature (m1.map (·.header_column)))) = none) :
    saveConfig (saveConfig store m1 f1) m2 f2 = saveConfig store m1 f1 ∧
    lookupConfig (saveConfig (saveConfig store m1 f1) m2 f2) headers = some m1 := by
  have hsave1 : saveConfig store m1 f1 =
      store ++ [{ signature := headerSignature (m1.map (·.header_column))
                  last_file_name := f1, approved_mapping := m1 }] := by
    rw [saveConfig_eq, hfresh]
    rfl
  have hfind : ((saveConfig store m1 f1).find? (fun c =>
      c.signature = headerSignature (m1.map (·.header_column)))) =
      some { signature := headerSignature (m1.map (·.header_column))
             last_file_name := f1, approved_mapping := m1 } := by
    rw [hsave1, List.find?_append, hfresh]
    simp [List.find?]
  have hsave2 : saveConfig (saveConfig store m1 f1) m2 f2 = saveConfig store m1 f1 := by
    rw [saveConfig_eq (saveConfig store m1 f1) m2 f2, hsig, hfind]
    rfl
  refine ⟨hsave2, ?_⟩
  rw [hsave2, lookupConfig_eq,
    headerSignature_perm headers (m1.map (·.header_column)) hperm, hfind]
  rfl

/-- Witness for `mapping_memory_first_write_wins`: a mapping saved under
headers `b, a`, a conflicting second save under `a, b`, and a lookup
with the headers in the order `a, b`. -/
theorem mapping_memory_first_write_wins_witness :
    (headerSignature (([{ header_column := "a", relationship_type := "X", target_entity := "Y" },
                        { header_column := "b", relationship_type := "Z", target_entity := "W" }] :
        List MappingRule).map (·.header_column)) =
      headerSignature (([{ header_column := "b", relationship_type := "R", target_entity := "T" },
                         { header_column := "a", relationship_type := "S", target_entity := "U" }] :
        List MappingRule).map (·.header_column)) ∧
     (["a", "b"] : List String).Perm
       (([{ header_column := "b", relationship_type := "R", target_entity := "T" },
          { header_column := "a", relationship_type := "S", target_entity := "U" }] :
          List MappingRule).map (·.header_column)) ∧
     (([] : List MappingConfig).find? (fun c =>
       c.signature = headerSignature
         (([{ header_column := "b", relationship_type := "R", target_entity := "T" },
            { header_column := "a", relationship_type := "S", target_entity := "U" }] :
            List MappingRule).map (·.header_column)))) = none) ∧
    (saveConfig (saveConfig []
        [{ header_column := "b", relationship_type := "R", target_entity := "T" },
         { header_column := "a", relationship_type := "S", target_entity := "U" }] "f1.csv")
        [{ header_column := "a", relationship_type := "X", target_entity := "Y" },
         { header_column := "b", relationship_type := "Z", target_entity := "W" }] "f2.csv" =
      saveConfig []
        [{ header_column := "b", relationship_type := "R", target_entity := "T" },
         { header_column := "a", relationship_type := "S", target_entity := "U" }] "f1.csv" ∧
     lookupConfig (saveConfig (saveConfig []
        [{ header_column := "b", relationship_type := "R", target_entity := "T" },
         { header_column := "a", relationship_type := "S", target_entity := "U" }] "f1.csv")
        [{ header_column := "a", relationship_type := "X", target_entity := "Y" },
         { header_column := "b", relationship_type := "Z", target_entity := "W" }] "f2.csv")
        ["a", "b"] =
      some [{ header_column := "b", relationship_type := "R", target_entity := "T" },
            { header_column := "a", relationship_type := "S", target_entity := "U" }]) := by
  refine ⟨⟨headerSignature_perm ["a", "b"] ["b", "a"] (List.Perm.swap "b" "a" []),
    List.Perm.swap "b" "a" [], rfl⟩, ?_⟩
  exact mapping_memory_first_write_wins []
    [{ header_column := "b", relationship_type := "R", target_entity := "T" },
     { header_column := "a", relationship_type := "S", target_entity := "U" }]
    [{ header_column := "a", relationship_type := "X", target_entity := "Y" },
     { header_column := "b", relationship_type := "Z", target_entity := "W" }]
    "f1.csv" "f2.csv" ["a", "b"]
    (headerSignature_perm ["a", "b"] ["b", "a"] (List.Perm.swap "b" "a" []))
    (List.Perm.swap "b" "a" []) rfl

theorem stepEntity_store_edges (docId : String) (now : Nat) (acc : RowAcc)
    (e : ExtractedEntity) :
    (stepEntity docId now acc e).store.edges = acc.store.edges := by
  unfold stepEntity
  split
  · rfl
  · cases h : lookupNode acc.store ("entity:" ++ sanitizeId e.label) <;> simp [h, setNode]

theorem foldl_stepEntity_edges (docId : String) (now : Nat) (es : List ExtractedEntity)
    (acc : RowAcc) :
    (es.foldl (stepEntity docId now) acc).store.edges = acc.store.edges := by
  induction es generalizing acc with
  | nil => rfl
  | cons e es ih => rw [List.foldl_cons, ih, stepEntity_store_edges]

theorem stepEntity_curEvent (docId : String) (now : Nat) (acc : RowAcc) (e : ExtractedEntity) :
    (stepEntity docId now acc e).curEvent =
      (if e.label = "" then acc.curEvent
       else if eventTypes.contains e.type then some ("entity:" ++ sanitizeId e.label)
       else acc.curEvent) := by
  by_cases he : e.label = ""
  · simp [stepEntity, he]
  · rw [if_neg he]
    unfold stepEntity
    rw [if_neg he]
    cases h : lookupNode acc.store ("entity:" ++ sanitizeId e.label) <;> simp [h]

theorem foldl_stepEntity_curEvent (docId : String) (now : Nat) (es : List ExtractedEntity)
    (acc : RowAcc) :
    (es.foldl (stepEntity docId now) acc).curEvent =
      es.foldl (fun cur e =>
        if e.label = "" then cur
        else if eventTypes.contains e.type then some ("entity:" ++ sanitizeId e.label) else cur)
        acc.curEvent := by
  induction es generalizing acc with
  | nil => rfl
  | cons e es ih =>
    rw [List.foldl_cons, List.foldl_cons, ih, stepEntity_curEvent]

theorem nextEdges_congr (s1 s2 : Store) (h : s1.edges = s2.edges) :
    nextEdges s1 = nextEdges s2 := by
  unfold nextEdges
  rw [h]

theorem processRow_nextEdges (docId : String) (now : Nat) (rs : RunState)
    (r : ExtractionResult) (hnorel : r.relationships = []) :
    nextEdges (processRow docId now rs r).store =
      nextEdges rs.store ++
        (match rs.lastEventId, rowEventId r with
         | some l, some c => [{ table := "NEXT", efrom := l, eto := c
                                etype := "Sequence", source := docId }]
         | _, _ => []) ∧
    (processRow docId now rs r).lastEventId =
      (match rowEventId r with
       | some c => some c
       | none => rs.lastEventId) := by
  have hcur : (r.entities.foldl (stepEntity docId now)
      { store := rs.store, entitiesInserted := rs.entitiesInserted, curEvent := none }).curEvent =
      rowEventId r := by
    rw [foldl_stepEntity_curEvent]
    rfl
  have hedg : (r.entities.foldl (stepEntity docId now)
      { store := rs.store, entitiesInserted := rs.entitiesInserted, curEvent := none }).store.edges =
      rs.store.edges :=
    foldl_stepEntity_edges docId now r.entities _
  simp only [processRow, hnorel, List.foldl_nil, hcur]
  rcases hl : rs.lastEventId with _ | l <;> rcases hc : rowEventId r with _ | c
  · exact ⟨by simp [nextEdges, hedg], trivial⟩
  · exact ⟨by simp [nextEdges, hedg], trivial⟩
  · exact ⟨by simp [nextEdges, hedg], trivial⟩
  · refine ⟨?_, trivial⟩
    simp [nextEdges, defineTable_edges, List.filter_append, hedg]

/-- C5: over rows whose extraction results contain entities only, the
NEXT edges the run adds are exactly one edge per consecutive pair of the
event ids of the event-producing rows, threaded from the incoming chain
cursor — so each pair of consecutive events is linked once, no
transitive NEXT edge is created, and event-less rows are skipped without
breaking the chain. -/
theorem next_chain_ordering (docId : String) (now : Nat) (results : List ExtractionResult)
    (rs : RunState) (hnorel : ∀ r ∈ results, r.relationships = []) :
    nextEdges (processRows docId now rs results).store =
      nextEdges rs.store ++ chainFrom docId rs.lastEventId (results.filterMap rowEventId) := by
  induction results generalizing rs with
  | nil => simp [processRows, chainFrom]
  | cons r rest ih =>
    have hr : r.relationships = [] := hnorel r (List.mem_cons_self r rest)
    have hrest : ∀ x ∈ rest, x.relationships = [] :=
      fun x hx => hnorel x (List.mem_cons_of_mem r hx)
    obtain ⟨hedges, hlast⟩ := processRow_nextEdges docId now rs r hr
    have hstep : processRows docId now rs (r :: rest) =
        processRows docId now (processRow docId now rs r) rest := rfl
    rw [hstep, ih (processRow docId now rs r) hrest, hedges, hlast, List.filterMap_cons]
    rcases hc : rowEventId r with _ | c <;> rcases hl : rs.lastEventId with _ | l
    · simp [chainFrom]
    · simp [chainFrom]
    · simp [chainFrom]
    · simp [chainFrom, List.append_assoc]

/-- Witness for `next_chain_ordering`: rows producing events E1 and E2,
then an event-less row, then E3 — entities only, no relationships. -/
theorem next_chain_ordering_witness :
    (∀ r ∈ [({ entities := [{ label := "E1", type := "Event", properties := [] }],
               relationships := [] } : ExtractionResult),
            { entities := [{ label := "E2", type := "Event", properties := [] }],
              relationships := [] },
            { entities := [{ label := "X", type := "Customer", properties := [] }],
              relationships := [] },
            { entities := [{ label := "E3", type := "Event", properties := [] }],
              relationships := [] }], r.relationships = []) ∧
    nextEdges (processRows "doc:1" 5 initRunState
        [{ entities := [{ label := "E1", type := "Event", properties := [] }],
           relationships := [] },
         { entities := [{ label := "E2", type := "Event", properties := [] }],
           relationships := [] },
         { entities := [{ label := "X", type := "Customer", properties := [] }],
           relationships := [] },
         { entities := [{ label := "E3", type := "Event", properties := [] }],
           relationships := [] }]).store =
      nextEdges initRunState.store ++
        chainFrom "doc:1" initRunState.lastEventId
          ([({ entities := [{ label := "E1", type := "Event", properties := [] }],
               relationships := [] } : ExtractionResult),
            { entities := [{ label := "E2", type := "Event", properties := [] }],
              relationships := [] },
            { entities := [{ label := "X", type := "Customer", properties := [] }],
              relationships := [] },
            { entities := [{ label := "E3", type := "Event", properties := [] }],
              relationships := [] }].filterMap rowEventId) := by
  refine ⟨by decide, ?_⟩
  exact next_chain_ordering "doc:1" 5
    [{ entities := [{ label := "E1", type := "Event", properties := [] }],
       relationships := [] },
     { entities := [{ label := "E2", type := "Event", properties := [] }],
       relationships := [] },
     { entities := [{ label := "X", type := "Customer", properties := [] }],
       relationships := [] },
     { entities := [{ label := "E3", type := "Event", properties := [] }],
       relationships := [] }] initRunState (by decide)

theorem notWhitespace_of_ge (c : Char) (h : 33 ≤ c.toNat) : c.isWhitespace = false := by
  have h1 : c ≠ ' ' := by intro he; rw [he] at h; exact absurd h (by decide)
  have h2 : c ≠ '\t' := by intro he; rw [he] at h; exact absurd h (by decide)
  have h3 : c ≠ '\r' := by intro he; rw [he] at h; exact absurd h (by decide)
  have h4 : c ≠ '\n' := by intro he; rw [he] at h; exact absurd h (by decide)
  simp [Char.isWhitespace, h1, h2, h3, h4]

theorem toUpper_of_not_lower (c : Char) (h : ¬ (97 ≤ c.toNat ∧ c.toNat ≤ 122)) :
    c.toUpper = c := by
  unfold Char.toUpper
  rw [if_neg]
  exact h

theorem toUpper_toNat_of_lower (c : Char) (h1 : 97 ≤ c.toNat) (h2 : c.toNat ≤ 122) :
    c.toUpper.toNat = c.toNat - 32 := by
  unfold Char.toUpper
  rw [if_pos ⟨h1, h2⟩]
  have hv : (c.toNat - 32).isValidChar := Or.inl (by omega)
  simp only [Char.ofNat, dif_pos hv]
  rfl

theorem isWhitespace_toUpper (c : Char) : c.toUpper.isWhitespace = c.isWhitespace := by
  by_cases h : 97 ≤ c.toNat ∧ c.toNat ≤ 122
  · have hu : c.toUpper.toNat = c.toNat - 32 := toUpper_toNat_of_lower c h.1 h.2
    rw [notWhitespace_of_ge c.toUpper (by omega), notWhitespace_of_ge c (by omega)]
  · rw [toUpper_of_not_lower c h]

theorem keepChar_of_lower (c : Char) (h1 : 97 ≤ c.toNat) (h2 : c.toNat ≤ 122) :
    keepChar c = true := by
  have hl : c.isLower = true := by
    simp only [Char.isLower, ge_iff_le, Bool.and_eq_true, decide_eq_true_eq]
    exact ⟨h1, h2⟩
  simp [keepChar, Char.isAlphanum, Char.isAlpha, hl]

theorem keepChar_of_upper (c : Char) (h1 : 65 ≤ c.toNat) (h2 : c.toNat ≤ 90) :
    keepChar c = true := by
  have hu : c.isUpper = true := by
    simp only [Char.isUpper, ge_iff_le, Bool.and_eq_true, decide_eq_true_eq]
    exact ⟨h1, h2⟩
  simp [keepChar, Char.isAlphanum, Char.isAlpha, hu]

theorem toLower_of_not_upper (c : Char) (h : ¬ (65 ≤ c.toNat ∧ c.toNat ≤ 90)) :
    c.toLower = c := by
  unfold Char.toLower
  rw [if_neg]
  exact h

theorem toLower_toUpper_of_lower (c : Char) (h1 : 97 ≤ c.toNat) (h2 : c.toNat ≤ 122) :
    c.toUpper.toLower = c := by
  have hu : c.toUpper.toNat = c.toNat - 32 := toUpper_toNat_of_lower c h1 h2
  unfold Char.toLower
  rw [if_pos ⟨by omega, by omega⟩]
  have harith : c.toUpper.toNat + 32 = c.toNat := by omega
  rw [harith, Char.ofNat_toNat]

theorem sanLower_toUpper (c : Char) :
    (sanitizeChar c.toUpper).toLower = (sanitizeChar c).toLower := by
  by_cases h : 97 ≤ c.toNat ∧ c.toNat ≤ 122
  · have hu : c.toUpper.toNat = c.toNat - 32 := toUpper_toNat_of_lower c h.1 h.2
    have hk1 : keepChar c.toUpper = true := keepChar_of_upper _ (by omega) (by omega)
    have hk2 : keepChar c = true := keepChar_of_lower _ h.1 h.2
    unfold sanitizeChar
    rw [if_pos hk1, if_pos hk2]
    rw [toLower_toUpper_of_lower c h.1 h.2, toLower_of_not_upper c (by omega)]
  · rw [toUpper_of_not_lower c h]

theorem trimChars_map_toUpper (l : List Char) :
    trimChars (l.map Char.toUpper) = (trimChars l).map Char.toUpper := by
  have hw : (Char.isWhitespace ∘ Char.toUpper) = Char.isWhitespace :=
    funext isWhitespace_toUpper
  unfold trimChars
  rw [List.dropWhile_map, hw, ← List.map_reverse, List.dropWhile_map, hw, ← List.map_reverse]

theorem toLower_sanitizeChar (c : Char) :
    (sanitizeChar c).toLower = if keepChar c then c.toLower else '_' := by
  unfold sanitizeChar
  by_cases h : keepChar c = true
  · rw [if_pos h, if_pos h]
  · rw [if_neg h, if_neg h]
    decide

/-- C3 counterexample: the normalizer does not strip characters outside
`[A-Za-z0-9_]` — it replaces each with an underscore, so `"a b"` maps to
`"a_b"`, not to the `"ab"` the claim (and the spec-faithful
`normalizeSpec`) would produce. -/
theorem sanitizeId_replaces_not_strips :
    sanitizeId "a b" = "a_b" ∧ ¬ sanitizeId "a b" = "ab" ∧ normalizeSpec "a b" = "ab" := by
  refine ⟨by decide, by decide, by decide⟩

/-- C3 amended: the normalizer returns the fixed sentinel `"unknown"`
for empty input, and on non-empty input it trims surrounding
whitespace, replaces every character outside `[A-Za-z0-9_]` with an
underscore and lowercases the result; it is case-insensitive: an input
upper-cased character by character normalizes to the same key. -/
theorem sanitizeId_amended (s : String) (hs : s ≠ "") :
    sanitizeId "" = "unknown" ∧
    (sanitizeId s).data =
      (trimChars s.data).map (fun c => if keepChar c then c.toLower else '_') ∧
    sanitizeId ⟨s.data.map Char.toUpper⟩ = sanitizeId s := by
  refine ⟨rfl, ?_, ?_⟩
  · rw [sanitizeId, if_neg hs]
    show ((trimChars s.data).map sanitizeChar).map Char.toLower = _
    rw [List.map_map]
    congr 1
    funext c
    exact toLower_sanitizeChar c
  · have hd : s.data ≠ [] := by
      intro hnil
      apply hs
      cases s with
      | mk d => cases hnil; rfl
    have hne : (⟨s.data.map Char.toUpper⟩ : String) ≠ "" := by
      intro he
      have h1 : s.data.map Char.toUpper = [] := congrArg String.data he
      exact hd (List.map_eq_nil_iff.mp h1)
    rw [sanitizeId, sanitizeId, if_neg hne, if_neg hs]
    congr 1
    show ((trimChars (s.data.map Char.toUpper)).map sanitizeChar).map Char.toLower = _
    rw [trimChars_map_toUpper, List.map_map, List.map_map, List.map_map]
    congr 1
    funext c
    exact sanLower_toUpper c

/-- Witness for `sanitizeId_amended` at the concrete label `"Ab C"`. -/
theorem sanitizeId_amended_witness :
    ("Ab C" : String) ≠ "" ∧
    (sanitizeId "" = "unknown" ∧
     (sanitizeId "Ab C").data =
       (trimChars ("Ab C" : String).data).map (fun c => if keepChar c then c.toLower else '_') ∧
     sanitizeId ⟨("Ab C" : String).data.map Char.toUpper⟩ = sanitizeId "Ab C") := by
  exact ⟨by decide, sanitizeId_amended "Ab C" (by decide)⟩
